import Mathlib

/-
Verification of the dependency-resolution-and-cache engine of
src/core/src/plugins/typescript/modules.ts.

The TypeScript source is shallowly embedded as pure Lean functions:
the process-wide mutable caches (`moduleCache`, `cachedMap`) become an
explicit `CacheState` threaded through every operation, the async
network collaborator (the jsDelivr registry client `NPM`) becomes an
oracle structure `NPMEnv`, and every network call performed is recorded
in an explicit trace (`List NetCall`).  The single-threaded cooperative
concurrency of the source (`Promise.all` / `Promise.allSettled` launch
everything, then join) is modelled by running the launched operations
in list order while still recording every launched call in the trace.
-/

set_option autoImplicit false

namespace Modules

/-- Every network request the module loader can issue, used to state
"no fetch happens" / "at most one fetch sequence" properties. -/
inductive NetCall where
  | calcVersion (module version : String)
  | getFileTree (module version : String)
  | getFileContent (module version file : String)
  deriving DecidableEq, Repr

/-- One value of the conditional-exports map of a manifest: either a plain
path string or a per-condition object (the source models the conditions
import/require/browser/node/default/types/typings). -/
structure ExportObj where
  imp : Option String
  req : Option String
  browser : Option String
  node : Option String
  dflt : Option String
  types : Option String
  typings : Option String
  deriving DecidableEq, Repr

inductive ExportValue where
  | str (s : String)
  | obj (o : ExportObj)
  deriving DecidableEq, Repr

/-- The `ModuleMeta` record of the source: the subset of package.json the
loader reads.  JavaScript objects become association lists. -/
structure ModuleMeta where
  main : Option String
  module : Option String
  browser : Option String
  typings : Option String
  types : Option String
  exports : Option (List (String × ExportValue))
  dependencies : Option (List (String × String))
  deriving DecidableEq, Repr

def ModuleMeta.empty : ModuleMeta :=
  ⟨none, none, none, none, none, none, none⟩

/-- The `ModuleCacheItem` tagged union of the source: loading / loaded
(manifest plus file-path-to-content map) / error message. -/
inductive ModuleCacheItem where
  | loading
  | loaded (meta : ModuleMeta) (files : List (String × String))
  | error (msg : String)
  deriving DecidableEq, Repr

/-- Lookup in a JavaScript-object-like association list. -/
def lookupA {α : Type} : List (String × α) → String → Option α
  | [], _ => none
  | p :: rest, k => if p.1 == k then some p.2 else lookupA rest k

/-- Assignment `o[k] = v` on a JavaScript-object-like association list:
an existing key keeps its position and gets the new value, a new key is
appended. -/
def insertA {α : Type} : List (String × α) → String → α → List (String × α)
  | [], k, v => [(k, v)]
  | p :: rest, k, v => if p.1 == k then (k, v) :: rest else p :: insertA rest k v

/-- `Object.assign(a, b)`: fold the entries of `b` into `a`. -/
def assignA {α : Type} (a b : List (String × α)) : List (String × α) :=
  b.foldl (fun acc p => insertA acc p.1 p.2) a

/-- The process-wide mutable state of the source: `moduleCache` (package
name to version-to-entry map) and `cachedMap` (memo keys of completed
fetch sequences). -/
structure CacheState where
  moduleCache : List (String × List (String × ModuleCacheItem))
  cachedMap : List (String × Bool)
  deriving DecidableEq, Repr

/-- The empty initial cache state. -/
def cs0 : CacheState := ⟨[], []⟩

/-- The registry-client collaborator (the `NPM` namespace of the source)
together with `JSON.parse` of a manifest, as a deterministic oracle.
`Except.error` models a thrown `Error` carrying its message. -/
structure NPMEnv where
  calcVersion : String → String → Except String String
  getFileTree : String → String → Except String (List String)
  getFileContent : String → String → String → Except String String
  parseManifest : String → Except String ModuleMeta

/-- `s.endsWith post` of JavaScript/Lean, implemented by structural
recursion over the character lists so that it evaluates inside the
kernel. -/
def strEndsWith (s post : String) : Bool :=
  post.data.isSuffixOf s.data

def versionErrMsg (module version : String) : String :=
  "Version " ++ version ++ " of module " ++ module ++ " does not exist"

def notLoadedMsg (module version : String) : String :=
  "Module " ++ module ++ "@" ++ version ++ " is not loaded yet"

/-- The `${module}@${version}[${opts.ext?.join(',')}]` memo key of the
source; note that an absent filter stringifies to "undefined" and that
the filter is joined in the order given, unsorted. -/
def extKeyPart : Option (List String) → String
  | none => "undefined"
  | some l => String.intercalate "," l

def uniqKey (module version : String) (ext : Option (List String)) : String :=
  module ++ "@" ++ version ++ "[" ++ extKeyPart ext ++ "]"

/-- The file filter of the fetch sequence: `/package.json` is always
kept, otherwise a file is kept iff its name ends with one of the
extensions (everything is kept when no filter is given). -/
def keepFile (ext : Option (List String)) (name : String) : Bool :=
  name == "/package.json" ||
    (match ext with
     | some exts => exts.any fun e => strEndsWith name e
     | none => true)

/-- Join of the concurrently launched `getFileContent` calls: the first
(in list order) rejection wins, otherwise all pairs are collected. -/
def collectContents (env : NPMEnv) (module version : String) :
    List String → Except String (List (String × String))
  | [] => Except.ok []
  | n :: rest =>
    match env.getFileContent module version n, collectContents env module version rest with
    | Except.error m, _ => Except.error m
    | Except.ok _, Except.error m => Except.error m
    | Except.ok c, Except.ok cs => Except.ok ((n, c) :: cs)

/-- The body of the `try` block of `getModule`: list the file tree,
filter it, fetch every kept file concurrently, parse `/package.json`
(an absent manifest file parses as the empty manifest), and produce the
cache entry that replaces the `loading` slot.  The second component is
the trace of network calls launched. -/
def loadOutcome (env : NPMEnv) (module version : String) (ext : Option (List String)) :
    ModuleCacheItem × List NetCall :=
  match env.getFileTree module version with
  | Except.error msg => (ModuleCacheItem.error msg, [NetCall.getFileTree module version])
  | Except.ok names =>
    let kept := names.filter (keepFile ext)
    let tc := kept.map fun n => NetCall.getFileContent module version n
    let item :=
      match collectContents env module version kept with
      | Except.error msg => ModuleCacheItem.error msg
      | Except.ok files =>
        match files.find? (fun p => p.1 == "/package.json") with
        | none => ModuleCacheItem.loaded ModuleMeta.empty files
        | some p =>
          match env.parseManifest p.2 with
          | Except.ok meta => ModuleCacheItem.loaded meta files
          | Except.error msg => ModuleCacheItem.error msg
    (item, NetCall.getFileTree module version :: tc)

/-- `if (!moduleCache.has(module)) moduleCache.set(module, {})`. -/
def ensureModule (st : CacheState) (module : String) : CacheState :=
  if (lookupA st.moduleCache module).isSome then st
  else { st with moduleCache := insertA st.moduleCache module [] }

/-- Read `moduleCache.get(module)?.[version]`. -/
def lookupEntry (st : CacheState) (module version : String) : Option ModuleCacheItem :=
  match lookupA st.moduleCache module with
  | none => none
  | some vm => lookupA vm version

/-- Write `moduleCache.get(module)[version] = item`. -/
def setEntry (st : CacheState) (module version : String) (item : ModuleCacheItem) : CacheState :=
  { st with moduleCache :=
      insertA st.moduleCache module (insertA ((lookupA st.moduleCache module).getD []) version item) }

/-- The final read of `getModule` (lines 98-105 of the source): a loaded
entry is returned (as its resolved version key, manifest and file map),
an error entry throws its message, a loading entry throws the
"not loaded yet" message.  An absent entry cannot occur on runs from
the source's entry points; it is mapped to the same thrown message. -/
def readEntry (st : CacheState) (module version : String) :
    Except String (String × ModuleMeta × List (String × String)) :=
  match lookupEntry st module version with
  | some (ModuleCacheItem.loaded meta files) => Except.ok (version, meta, files)
  | some (ModuleCacheItem.error msg) => Except.error msg
  | some ModuleCacheItem.loading => Except.error (notLoadedMsg module version)
  | none => Except.error (notLoadedMsg module version)

/-- Lines 60-105 of the source, after version resolution: the memo-key
check, the fetch-and-store sequence, and the final read.  `origVersion`
is the version string passed by the caller (it appears in the trace of
the version-resolution call), `v` the version string used as cache key. -/
def storeOutcome (env : NPMEnv) (st : CacheState) (module v : String)
    (ext : Option (List String)) : CacheState :=
  setEntry (setEntry st module v ModuleCacheItem.loading) module v (loadOutcome env module v ext).1

def withMemo (st : CacheState) (module v : String) (ext : Option (List String)) : CacheState :=
  { st with cachedMap := insertA st.cachedMap (uniqKey module v ext) true }

def getModuleCore (env : NPMEnv) (st : CacheState) (module origVersion v : String)
    (ext : Option (List String)) (forceReload : Bool) :
    Except String (String × ModuleMeta × List (String × String)) × CacheState × List NetCall :=
  if lookupA st.cachedMap (uniqKey module v ext) ≠ some true ∨ forceReload = true then
    (readEntry (withMemo (storeOutcome env st module v ext) module v ext) module v,
     withMemo (storeOutcome env st module v ext) module v ext,
     NetCall.calcVersion module origVersion :: (loadOutcome env module v ext).2)
  else
    (readEntry st module v, st, [NetCall.calcVersion module origVersion])

/-- The `getModule` function of the source.  When version resolution
fails, the source records an error entry under the original query
string and then falls through to the fetch sequence with the query
string as version — there is no early return. -/
def getModule (env : NPMEnv) (st : CacheState) (module version : String)
    (ext : Option (List String)) (forceReload : Bool) :
    Except String (String × ModuleMeta × List (String × String)) × CacheState × List NetCall :=
  match env.calcVersion module version with
  | Except.ok v => getModuleCore env (ensureModule st module) module version v ext forceReload
  | Except.error _ =>
    getModuleCore env
      (setEntry (ensureModule st module) module version
        (ModuleCacheItem.error (versionErrMsg module version)))
      module version version ext forceReload

/-- Modelled from the spec: the source imports `getDTName` from
`./utils`, a file that is not part of the given sources.  Per the spec
the fallback type-package name is synthesized from the original package
name, with scoped packages flattened into a single segment (the
conventional DefinitelyTyped flattening `@scope/pkg` to `scope__pkg`,
unscoped names unchanged). -/
def replaceFirstSlash : List Char → List Char
  | [] => []
  | c :: rest => if c = '/' then '_' :: '_' :: rest else c :: replaceFirstSlash rest

def getDTName (s : String) : String :=
  if "@".data.isPrefixOf s.data && s.data.contains '/' then
    String.mk (replaceFirstSlash (s.data.drop 1))
  else s

/-- `value?.endsWith('.d.ts')` coerced to boolean. -/
def optEndsDts : Option String → Bool
  | some s => strEndsWith s ".d.ts"
  | none => false

/-- The `isDTSModule` classifier of the source. -/
def isDTSModule (meta : ModuleMeta) : Bool :=
  optEndsDts meta.typings || optEndsDts meta.types ||
    (meta.exports.getD []).any fun p =>
      match p.2 with
      | ExportValue.str s => strEndsWith s ".d.ts"
      | ExportValue.obj o => optEndsDts o.types || optEndsDts o.typings

/-- The value stored under one key of the object `resolveDep` returns.
Because line 157 of the source assigns the *array* of recursively
resolved trees into the result object, the runtime object maps some
keys (the numeric string indices of that array) to whole nested trees
rather than to cache entries, so the value type is a sum. -/
inductive TreeVal where
  | item (it : ModuleCacheItem)
  | tree (t : List (String × TreeVal))

/-- The result object of one `resolveDep` walk. -/
abbrev ResolvedTree := List (String × TreeVal)

/-- Join of the concurrently launched recursive `resolveDep` calls of
line 154: every call is launched (so every call's cache effects and
trace happen), and the first (in list order) rejection wins. -/
def runChildren
    (k : CacheState → String → String → Except String ResolvedTree × CacheState × List NetCall) :
    CacheState → List (String × String) →
    Except String (List ResolvedTree) × CacheState × List NetCall
  | st, [] => (Except.ok [], st, [])
  | st, (m, v) :: rest =>
    let r1 := k st m v
    let r2 := runChildren k r1.2.1 rest
    (match r1.1, r2.1 with
     | Except.error msg, _ => Except.error msg
     | Except.ok _, Except.error msg2 => Except.error msg2
     | Except.ok t, Except.ok ts => Except.ok (t :: ts),
     r2.2.1, r1.2.2 ++ r2.2.2)

/-- One unfolding of the body of `resolveDep` (lines 138-159 of the
source), parameterized by the function `k` used for the recursive
calls.  Loads the package itself filtered to `.d.ts`; when the manifest
is not self-describing, tries the fallback `@types/...` package at the
same version string, swallowing its failure; unions the dependency maps
with `Object.assign` — which mutates the cached primary manifest's
dependency object when that object exists, modelled by the `setEntry`
write-back; recurses over the union; and assigns the *array* of child
trees into the result, which stores them under the numeric string keys
"0", "1", ... . -/
def resolveDepStep
    (k : CacheState → String → String → Except String ResolvedTree × CacheState × List NetCall)
    (env : NPMEnv) (st : CacheState) (module version : String) :
    Except String ResolvedTree × CacheState × List NetCall :=
  match getModule env st module version (some [".d.ts"]) false with
  | (Except.error msg, st1, t1) => (Except.error msg, st1, t1)
  | (Except.ok (vKey, meta, files), st1, t1) =>
    let dtsName := "@types/" ++ getDTName module
    let fb :
        Option (ModuleMeta × List (String × String)) × CacheState × List NetCall :=
      if isDTSModule meta then (none, st1, [])
      else
        match getModule env st1 dtsName version (some [".d.ts"]) false with
        | (Except.ok (_, meta2, files2), st2, t2) => (some (meta2, files2), st2, t2)
        | (Except.error _, st2, t2) => (none, st2, t2)
    let dtsMeta : ModuleMeta :=
      match fb.1 with
      | some md => md.1
      | none => ModuleMeta.empty
    let deps := assignA (meta.dependencies.getD []) (dtsMeta.dependencies.getD [])
    let metaU := if meta.dependencies.isSome then { meta with dependencies := some deps } else meta
    let st3 :=
      if meta.dependencies.isSome then
        setEntry fb.2.1 module vKey (ModuleCacheItem.loaded metaU files)
      else fb.2.1
    let modules : ResolvedTree :=
      (module, TreeVal.item (ModuleCacheItem.loaded metaU files)) ::
        (match fb.1 with
         | some md => [(dtsName, TreeVal.item (ModuleCacheItem.loaded md.1 md.2))]
         | none => [])
    match runChildren k st3 deps with
    | (Except.error msg, st4, t3) => (Except.error msg, st4, t1 ++ fb.2.2 ++ t3)
    | (Except.ok children, st4, t3) =>
      (Except.ok (assignA modules (children.enum.map fun p => (toString p.1, TreeVal.tree p.2))),
       st4, t1 ++ fb.2.2 ++ t3)

/-- Gas-indexed recursion for `resolveDep`.  The depth guard of line
134 is checked first, so for `depth > 2` the result is the empty tree
with no network calls regardless of gas; the entry point `resolveDep`
supplies gas `3 - depth`, which makes the gas-exhausted branch
unreachable from it. -/
def resolveDepGas (gas : Nat) (env : NPMEnv) (st : CacheState) (module version : String)
    (depth : Nat) : Except String ResolvedTree × CacheState × List NetCall :=
  if depth > 2 then (Except.ok [], st, [])
  else
    match gas with
    | 0 => (Except.ok [], st, [])
    | Nat.succ g =>
      resolveDepStep (fun st2 m v => resolveDepGas g env st2 m v (depth + 1)) env st module version
termination_by structural gas

/-- The `resolveDep` function of the source. -/
def resolveDep (env : NPMEnv) (st : CacheState) (module version : String) (depth : Nat) :
    Except String ResolvedTree × CacheState × List NetCall :=
  resolveDepGas (3 - depth) env st module version depth

/-- One slot of the object `resolveDeps` returns: either the
`depLoadError` message of a rejected reference, or the reference's
resolved tree. -/
inductive DepResult where
  | err (msg : String)
  | tree (t : ResolvedTree)

def DepResult.isErrB : DepResult → Bool
  | DepResult.err _ => true
  | DepResult.tree _ => false

/-- The truthiness test `dep[depLoadErrorSymbol]` of `foreachDeps`: an
empty error message is falsy in JavaScript. -/
def DepResult.truthyErr : DepResult → Bool
  | DepResult.err m => !(m == "")
  | DepResult.tree _ => false

def exceptErrB {α : Type} : Except String α → Bool
  | Except.error _ => true
  | Except.ok _ => false

def toDepResult : Except String ResolvedTree → DepResult
  | Except.error m => DepResult.err m
  | Except.ok t => DepResult.tree t

def depKey (m v : String) : String := m ++ "@" ++ v

/-- `Promise.allSettled` over the top-level references: every
`resolveDep` runs (at depth 0), every outcome is captured
independently. -/
def runAll (env : NPMEnv) (st : CacheState) :
    List (String × String) →
    List (Except String ResolvedTree) × CacheState × List NetCall
  | [] => ([], st, [])
  | (m, v) :: rest =>
    let r1 := resolveDep env st m v 0
    let r2 := runAll env r1.2.1 rest
    (r1.1 :: r2.1, r2.2.1, r1.2.2 ++ r2.2.2)

/-- The `reduce` of `resolveDeps`: slot `"module@version"` of the
accumulator object is assigned each reference's outcome in order. -/
def buildAcc (deps : List (String × String)) (rs : List (Except String ResolvedTree)) :
    List (String × DepResult) :=
  (deps.zip rs).foldl (fun acc p => insertA acc (depKey p.1.1 p.1.2) (toDepResult p.2)) []

/-- The `resolveDeps` function of the source. -/
def resolveDeps (env : NPMEnv) (st : CacheState) (deps : List (String × String)) :
    List (String × DepResult) × CacheState × List NetCall :=
  let r := runAll env st deps
  (buildAcc deps r.1, r.2.1, r.2.2)

def depResultTree : DepResult → ResolvedTree
  | DepResult.err _ => []
  | DepResult.tree t => t

/-- The files one top-level entry of a resolved tree contributes in
`foreachDeps`: only a value that is a cache entry in the `loaded` state
enumerates its files (`Object.entries` skips the symbol keys); `error`
and `loading` entries and the mis-keyed nested trees contribute
nothing. -/
def tripsOfModule (p : String × TreeVal) : List (String × String × String) :=
  match p.2 with
  | TreeVal.item (ModuleCacheItem.loaded _ files) => files.map fun f => (p.1, f.1, f.2)
  | _ => []

/-- The sequence of `(moduleName, filePath, content)` callback
invocations `foreachDeps` performs for a batch result. -/
def depTriples (deps : List (String × DepResult)) : List (String × String × String) :=
  ((((deps.filter fun p => !(DepResult.truthyErr p.2)).map fun p => depResultTree p.2).flatten).map
    tripsOfModule).flatten

/-- The `(depName, message)` pairs reported to the `onDepLoadError`
callback by `foreachDeps`. -/
def depFailures (deps : List (String × DepResult)) : List (String × String) :=
  deps.filterMap fun p =>
    match p.2 with
    | DepResult.err m => if m == "" then none else some (p.1, m)
    | DepResult.tree _ => none

/-- A package reference as produced by `getReferencesForModule`: a
package name and an optional version query. -/
structure Ref where
  module : String
  version : Option String
  deriving DecidableEq, Repr

/-- `extraLibs.splice(extraLibs.findIndex(...), 1)`: remove the first
virtual file whose path equals `path`, if any. -/
def removeFirst : List (String × String) → String → List (String × String)
  | [], _ => []
  | l :: rest, path => if l.1 == path then rest else l :: removeFirst rest path

/-- Outcome of one `resolveModules` synchronization: the Type Host's
virtual-file list afterwards, whether `setExtraLibs` was called, the
cache state, the network trace, and the failures reported through the
`onDepLoadError` callback. -/
structure SyncResult where
  extraLibs : List (String × String)
  written : Bool
  st : CacheState
  trace : List NetCall
  failures : List (String × String)
  deriving Repr

/-- The `resolveModules` function of the source.  The Type Host
(`monaco.languages.typescript.typescriptDefaults`) is modelled by the
`extraLibs` list passed in and returned.  Added references resolve
first, then removed references; the delete pass looks files up by
their raw in-package path; the add pass removes by raw path and then
appends under the synthesized `file:///node_modules/...` path; when
both batch results are empty objects the host is not written. -/
def resolveModules (env : NPMEnv) (st : CacheState) (extraLibs : List (String × String))
    (oldRefs newRefs : List Ref) : SyncResult :=
  let addRefs := newRefs.filter fun r => !(oldRefs.any fun o => o.module == r.module)
  let delRefs := oldRefs.filter fun r => !(newRefs.any fun n => n.module == r.module)
  let ra := resolveDeps env st (addRefs.map fun r => (r.module, r.version.getD "latest"))
  let rd := resolveDeps env ra.2.1 (delRefs.map fun r => (r.module, r.version.getD "latest"))
  let libs1 := (depTriples rd.1).foldl (fun libs tr => removeFirst libs tr.2.1) extraLibs
  let libs2 := (depTriples ra.1).foldl
    (fun libs tr =>
      removeFirst libs tr.2.1 ++ [("file:///node_modules/" ++ tr.1 ++ tr.2.1, tr.2.2)]) libs1
  if rd.1.length = 0 ∧ ra.1.length = 0 then
    ⟨extraLibs, false, rd.2.1, ra.2.2 ++ rd.2.2, depFailures ra.1⟩
  else
    ⟨libs2, true, rd.2.1, ra.2.2 ++ rd.2.2, depFailures ra.1⟩

/-! Concrete registry oracles used to exercise the embedding on the
scenarios of the individual claims. -/

/-- Manifest with `types: "index.d.ts"` and no dependencies. -/
def metaSelfNoDeps : ModuleMeta :=
  ⟨none, none, none, none, some "index.d.ts", none, none⟩

/-- Manifest with `types: "index.d.ts"` and a dependency on `b@1`. -/
def metaA1 : ModuleMeta :=
  ⟨none, none, none, none, some "index.d.ts", none, some [("b", "1")]⟩

/-- Oracle for the C1 scenario: `a@1` resolves to `1.0.0`, is
self-describing and depends on `b@1`; `b@1` resolves, is
self-describing and has no dependencies. -/
def env1 : NPMEnv :=
  ⟨fun m v =>
      if m == "a" && v == "1" then Except.ok "1.0.0"
      else if m == "b" && v == "1" then Except.ok "1.0.0"
      else Except.error "no such version",
    fun m v =>
      if m == "a" && v == "1.0.0" then Except.ok ["/package.json", "/index.d.ts"]
      else if m == "b" && v == "1.0.0" then Except.ok ["/package.json"]
      else Except.error "no such tree",
    fun m v f =>
      if m == "a" && v == "1.0.0" && f == "/package.json" then Except.ok "PA"
      else if m == "a" && v == "1.0.0" && f == "/index.d.ts" then Except.ok "DA"
      else if m == "b" && v == "1.0.0" && f == "/package.json" then Except.ok "PB"
      else Except.error "no such file",
    fun c =>
      if c == "PA" then Except.ok metaA1
      else if c == "PB" then Except.ok metaSelfNoDeps
      else Except.error "bad json"⟩

/-- Oracle for the C2 scenario: `a@1.0.0` resolves to itself, is
self-describing and has no dependencies. -/
def env2 : NPMEnv :=
  ⟨fun m v =>
      if m == "a" && v == "1.0.0" then Except.ok "1.0.0" else Except.error "no such version",
    fun m v =>
      if m == "a" && v == "1.0.0" then Except.ok ["/package.json", "/index.d.ts"]
      else Except.error "no such tree",
    fun m v f =>
      if m == "a" && v == "1.0.0" && f == "/package.json" then Except.ok "PA2"
      else if m == "a" && v == "1.0.0" && f == "/index.d.ts" then Except.ok "DA2"
      else Except.error "no such file",
    fun c => if c == "PA2" then Except.ok metaSelfNoDeps else Except.error "bad json"⟩

/-- Oracle for the C3 scenario: version resolution always fails, and
the file-tree listing for the unresolved query fails too. -/
def env3 : NPMEnv :=
  ⟨fun _ _ => Except.error "ECONNREFUSED",
    fun _ _ => Except.error "Failed to load FLAT",
    fun _ _ _ => Except.error "no such file",
    fun _ => Except.error "bad json"⟩

/-- Oracle for the C4 scenarios: `m@1` resolves to `1.0.0` with files
`/package.json`, `/a.x`, `/b.y`. -/
def env4 : NPMEnv :=
  ⟨fun m v => if m == "m" && v == "1" then Except.ok "1.0.0" else Except.error "no such version",
    fun m v =>
      if m == "m" && v == "1.0.0" then Except.ok ["/package.json", "/a.x", "/b.y"]
      else Except.error "no such tree",
    fun m v f =>
      if m == "m" && v == "1.0.0" && f == "/package.json" then Except.ok "PJ"
      else if m == "m" && v == "1.0.0" && f == "/a.x" then Except.ok "CA"
      else if m == "m" && v == "1.0.0" && f == "/b.y" then Except.ok "CB"
      else Except.error "no such file",
    fun c => if c == "PJ" then Except.ok ModuleMeta.empty else Except.error "bad json"⟩

/-- Oracle for the second C4 scenario: version resolution fails and the
file-tree fetch at the unresolved query fails with message `FT`. -/
def env4b : NPMEnv :=
  ⟨fun _ _ => Except.error "ECONNREFUSED",
    fun _ _ => Except.error "FT",
    fun _ _ _ => Except.error "no such file",
    fun _ => Except.error "bad json"⟩

/-- Oracle for the C5 scenarios: `a@1` resolves and loads a
self-describing dependency-free package; `b@2` fails version resolution
and its fallback fetch fails. -/
def env5 : NPMEnv :=
  ⟨fun m v => if m == "a" && v == "1" then Except.ok "1.0.0" else Except.error "no such version",
    fun m v =>
      if m == "a" && v == "1.0.0" then Except.ok ["/package.json"] else Except.error "FTB",
    fun m v f =>
      if m == "a" && v == "1.0.0" && f == "/package.json" then Except.ok "PA5"
      else Except.error "no such file",
    fun c => if c == "PA5" then Except.ok metaSelfNoDeps else Except.error "bad json"⟩

/-- Oracle where every request fails; used where no network activity is
expected at all. -/
def envDead : NPMEnv :=
  ⟨fun _ _ => Except.error "dead", fun _ _ => Except.error "dead",
    fun _ _ _ => Except.error "dead", fun _ => Except.error "dead"⟩

/-- Manifest of the C7 primary package `a`: not self-describing, with a
dependency map `x ↦ 1`. -/
def metaA7 : ModuleMeta :=
  ⟨none, none, none, none, none, none, some [("x", "1")]⟩

/-- Manifest of the C7 fallback package `@types/a`: a dependency map
`y ↦ 2`. -/
def metaT7 : ModuleMeta :=
  ⟨none, none, none, none, some "index.d.ts", none, some [("y", "2")]⟩

/-- The C7 primary manifest after `Object.assign` has merged the
fallback dependencies into its dependency object. -/
def metaA7Mut : ModuleMeta :=
  ⟨none, none, none, none, none, none, some [("x", "1"), ("y", "2")]⟩

/-- Oracle for the C7 scenario: `a@1` loads `metaA7` (not
self-describing), `@types/a@1` loads `metaT7`, and the dependencies
`x@1`, `y@2` load self-describing dependency-free packages. -/
def env7 : NPMEnv :=
  ⟨fun m v =>
      if m == "a" && v == "1" then Except.ok "1.0.0"
      else if m == "@types/a" && v == "1" then Except.ok "1.0.0"
      else if m == "x" && v == "1" then Except.ok "1.0.0"
      else if m == "y" && v == "2" then Except.ok "2.0.0"
      else Except.error "no such version",
    fun m v =>
      if (m == "a" || m == "@types/a" || m == "x") && v == "1.0.0" then
        Except.ok ["/package.json"]
      else if m == "y" && v == "2.0.0" then Except.ok ["/package.json"]
      else Except.error "no such tree",
    fun m v f =>
      if f == "/package.json" then
        if m == "a" && v == "1.0.0" then Except.ok "PA7"
        else if m == "@types/a" && v == "1.0.0" then Except.ok "PT7"
        else if m == "x" && v == "1.0.0" then Except.ok "PX7"
        else if m == "y" && v == "2.0.0" then Except.ok "PY7"
        else Except.error "no such file"
      else Except.error "no such file",
    fun c =>
      if c == "PA7" then Except.ok metaA7
      else if c == "PT7" then Except.ok metaT7
      else if c == "PX7" || c == "PY7" then Except.ok metaSelfNoDeps
      else Except.error "bad json"⟩

/-- Manifest of the C10 primary package: no type fields at all and no
dependencies, hence not self-describing. -/
def metaL : ModuleMeta := ModuleMeta.empty

/-- Oracle for the C10 scenario: `lodash@4.0.0` resolves and loads a
manifest that is not self-describing; every request for
`@types/lodash` fails (its version resolution and its file tree). -/
def env10 : NPMEnv :=
  ⟨fun m v => if m == "lodash" && v == "4.0.0" then Except.ok "4.0.0"
      else Except.error "no such version",
    fun m v =>
      if m == "lodash" && v == "4.0.0" then Except.ok ["/package.json"]
      else Except.error "Failed FT",
    fun m v f =>
      if m == "lodash" && v == "4.0.0" && f == "/package.json" then Except.ok "PL"
      else Except.error "no such file",
    fun c => if c == "PL" then Except.ok metaL else Except.error "bad json"⟩

/-! Helper lemmas about the association-list operations and the cache. -/

theorem lookupA_insertA_self {α : Type} (l : List (String × α)) (k : String) (v : α) :
    lookupA (insertA l k v) k = some v := by
  induction l with
  | nil => simp [insertA, lookupA]
  | cons p rest ih =>
    by_cases h : (p.1 == k) = true
    · simp [insertA, h, lookupA]
    · simp [insertA, h, lookupA, ih]

theorem mem_insertA {α : Type} (l : List (String × α)) (k : String) (v : α)
    (p : String × α) (h : p ∈ insertA l k v) : p ∈ l ∨ p = (k, v) := by
  induction l with
  | nil =>
    simp [insertA] at h
    right
    exact h
  | cons q rest ih =>
    by_cases hq : (q.1 == k) = true
    · simp [insertA, hq] at h
      rcases h with h | h
      · right
        simp [h]
      · left
        exact List.mem_cons_of_mem _ h
    · simp [insertA, hq] at h
      rcases h with h | h
      · left
        simp [h]
      · rcases ih h with h2 | h2
        · left
          exact List.mem_cons_of_mem _ h2
        · right
          exact h2

theorem mem_assignA {α : Type} (b a : List (String × α)) (p : String × α)
    (h : p ∈ assignA a b) : p ∈ a ∨ p ∈ b := by
  induction b generalizing a with
  | nil => left; exact h
  | cons q rest ih =>
    have h0 : assignA a (q :: rest) = assignA (insertA a q.1 q.2) rest := rfl
    rw [h0] at h
    rcases ih (insertA a q.1 q.2) h with h2 | h2
    · rcases mem_insertA a q.1 q.2 p h2 with h3 | h3
      · left; exact h3
      · right
        simp [h3]
    · right
      exact List.mem_cons_of_mem _ h2

theorem insertA_fresh {α : Type} (l : List (String × α)) (k : String) (v : α)
    (h : ∀ p ∈ l, (p.1 == k) = false) : insertA l k v = l ++ [(k, v)] := by
  induction l with
  | nil => rfl
  | cons q rest ih =>
    have hq := h q (List.mem_cons_self q rest)
    simp only [insertA, hq, Bool.false_eq_true, if_false, List.cons_append, List.cons.injEq,
      true_and]
    exact ih fun p hp => h p (List.mem_cons_of_mem _ hp)

theorem lookupEntry_setEntry_self (st : CacheState) (m v : String) (it : ModuleCacheItem) :
    lookupEntry (setEntry st m v it) m v = some it := by
  unfold lookupEntry setEntry
  simp [lookupA_insertA_self]

theorem setEntry_lookup_isSome (st : CacheState) (m v : String) (it : ModuleCacheItem) :
    (lookupA (setEntry st m v it).moduleCache m).isSome := by
  unfold setEntry
  simp [lookupA_insertA_self]

theorem ensureModule_cachedMap (st : CacheState) (m : String) :
    (ensureModule st m).cachedMap = st.cachedMap := by
  unfold ensureModule
  split <;> rfl

theorem ensureModule_isSome (st : CacheState) (m : String) :
    (lookupA (ensureModule st m).moduleCache m).isSome := by
  unfold ensureModule
  by_cases h : (lookupA st.moduleCache m).isSome
  · simp [h]
  · simp [h, lookupA_insertA_self]

theorem ensureModule_eq_self (st : CacheState) (m : String)
    (h : (lookupA st.moduleCache m).isSome) : ensureModule st m = st := by
  unfold ensureModule
  rw [if_pos h]

/-! Counting fetch calls in a network trace. -/

def isFileTreeCall : NetCall → Bool
  | NetCall.getFileTree _ _ => true
  | _ => false

def isContentCall : NetCall → Bool
  | NetCall.getFileContent _ _ _ => true
  | _ => false

/-- Number of file-tree listing calls in a trace: the count of
"underlying fetch sequences" started. -/
def countFileTree (t : List NetCall) : Nat := t.countP isFileTreeCall

/-- Number of file-content fetches in a trace. -/
def countContent (t : List NetCall) : Nat := t.countP isContentCall

theorem countFileTree_content_map (m v : String) (l : List String) :
    countFileTree (l.map fun n => NetCall.getFileContent m v n) = 0 := by
  induction l with
  | nil => rfl
  | cons a rest ih =>
    simp only [countFileTree, List.map_cons, List.countP_cons, isFileTreeCall] at ih ⊢
    simp [ih]

theorem countFileTree_loadOutcome (env : NPMEnv) (m v : String) (ext : Option (List String)) :
    countFileTree (loadOutcome env m v ext).2 = 1 := by
  unfold loadOutcome
  cases henv : env.getFileTree m v with
  | error msg => simp [countFileTree, List.countP_cons, isFileTreeCall]
  | ok names =>
    simp only [countFileTree, List.countP_cons, isFileTreeCall]
    have := countFileTree_content_map m v (names.filter (keepFile ext))
    simp only [countFileTree] at this
    simp [this]

/-! Behaviour of `getModuleCore` needed for the memoization claim. -/

theorem getModuleCore_result (env : NPMEnv) (st : CacheState) (m ov v : String)
    (ext : Option (List String)) (fr : Bool) :
    (getModuleCore env st m ov v ext fr).1 =
      readEntry (getModuleCore env st m ov v ext fr).2.1 m v := by
  unfold getModuleCore
  split <;> rfl

theorem getModuleCore_memo_after (env : NPMEnv) (st : CacheState) (m ov v : String)
    (ext : Option (List String)) :
    lookupA ((getModuleCore env st m ov v ext false).2.1).cachedMap (uniqKey m v ext) =
      some true := by
  unfold getModuleCore
  split
  case isTrue h => simp [withMemo, lookupA_insertA_self]
  case isFalse h =>
    push_neg at h
    exact h.1

theorem getModuleCore_fetch_count (env : NPMEnv) (st : CacheState) (m ov v : String)
    (ext : Option (List String)) :
    countFileTree (getModuleCore env st m ov v ext false).2.2 ≤ 1 := by
  unfold getModuleCore
  split
  · have h1 := countFileTree_loadOutcome env m v ext
    simp only [countFileTree] at h1
    simp [countFileTree, List.countP_cons, isFileTreeCall, h1]
  · simp [countFileTree, List.countP_cons, isFileTreeCall]

theorem getModuleCore_keeps_module (env : NPMEnv) (st : CacheState) (m ov v : String)
    (ext : Option (List String)) (h : (lookupA st.moduleCache m).isSome) :
    (lookupA ((getModuleCore env st m ov v ext false).2.1).moduleCache m).isSome := by
  unfold getModuleCore
  split
  · simp only [withMemo, storeOutcome]
    exact setEntry_lookup_isSome _ m v _
  · exact h

theorem getModuleCore_hit (env : NPMEnv) (st : CacheState) (m ov v : String)
    (ext : Option (List String)) (h : lookupA st.cachedMap (uniqKey m v ext) = some true) :
    getModuleCore env st m ov v ext false =
      (readEntry st m v, st, [NetCall.calcVersion m ov]) := by
  unfold getModuleCore
  rw [if_neg]
  simp [h]

theorem getModuleCore_trace_head (env : NPMEnv) (st : CacheState) (m ov v : String)
    (ext : Option (List String)) (fr : Bool) :
    ∃ rest, (getModuleCore env st m ov v ext fr).2.2 = NetCall.calcVersion m ov :: rest := by
  unfold getModuleCore
  by_cases h : lookupA st.cachedMap (uniqKey m v ext) ≠ some true ∨ fr = true
  · rw [if_pos h]
    exact ⟨_, rfl⟩
  · rw [if_neg h]
    exact ⟨_, rfl⟩

theorem getModule_trace_head (env : NPMEnv) (st : CacheState) (m ver : String)
    (ext : Option (List String)) (fr : Bool) :
    ∃ rest, (getModule env st m ver ext fr).2.2 = NetCall.calcVersion m ver :: rest := by
  unfold getModule
  cases env.calcVersion m ver with
  | ok v => exact getModuleCore_trace_head env _ m ver v ext fr
  | error e => exact getModuleCore_trace_head env _ m ver ver ext fr

/-! The claim theorems. -/

/-- Claim C6: for every package, version and depth greater than 2,
`resolveDep` returns an empty tree, leaves the cache untouched and
makes no network call at all for that branch. -/
theorem claim6_depth_guard (env : NPMEnv) (st : CacheState) (module version : String)
    (depth : Nat) (h : depth > 2) :
    resolveDep env st module version depth = (Except.ok [], st, []) := by
  unfold resolveDep resolveDepGas
  simp [h]

/-- Witness for claim C6 at depth 3 on a concrete oracle. -/
theorem claim6_witness :
    3 > 2 ∧ resolveDep envDead cs0 "left-pad" "1.0.0" 3 = (Except.ok [], cs0, []) :=
  ⟨by decide, claim6_depth_guard envDead cs0 "left-pad" "1.0.0" 3 (by decide)⟩

/-- The tree `resolveDep` actually returns in the C1 scenario: the
dependency `b`'s subtree is stored under the array-index key "0", not
merged under the key "b". -/
def tree1 : ResolvedTree :=
  [("a", TreeVal.item (ModuleCacheItem.loaded metaA1
      [("/package.json", "PA"), ("/index.d.ts", "DA")])),
   ("0", TreeVal.tree
      [("b", TreeVal.item (ModuleCacheItem.loaded metaSelfNoDeps [("/package.json", "PB")]))])]

/-- Claim C1: evaluation at the failing input.  `a@1` declares the
single dependency `b@1`, both resolve and load; the returned tree has
no entry for `b` — the recursive child's tree sits under the
array-index key "0", because line 157 of the source `Object.assign`s
the array of child trees instead of spreading it. -/
theorem claim1_children_under_numeric_keys :
    (resolveDep env1 cs0 "a" "1" 0).1 = Except.ok tree1 ∧
      lookupA tree1 "b" = none ∧
      lookupA tree1 "0" = some (TreeVal.tree
        [("b", TreeVal.item (ModuleCacheItem.loaded metaSelfNoDeps [("/package.json", "PB")]))]) :=
  ⟨rfl, rfl, rfl⟩

/-- The Type Host virtual-file list of the C2 scenario: the two files
of package `a` under their synthesized namespaced paths. -/
def libsC2 : List (String × String) :=
  [("file:///node_modules/a/package.json", "X"), ("file:///node_modules/a/index.d.ts", "Y")]

/-- Claim C2: evaluation at the failing input.  With `old = [a@1.0.0]`
(which resolves successfully) and `new = []`, the write-back happens,
but none of `a`'s virtual files is removed from the Type Host's list:
the delete pass of the source compares the host paths against the raw
in-package paths (`/index.d.ts`), which never match the synthesized
`file:///node_modules/a/...` paths. -/
theorem claim2_stale_files_not_removed :
    ((resolveDeps env2 cs0 [("a", "1.0.0")]).1.map fun p => (p.1, DepResult.isErrB p.2)) =
        [("a@1.0.0", false)] ∧
      (resolveModules env2 cs0 libsC2 [⟨"a", some "1.0.0"⟩] []).extraLibs = libsC2 ∧
      (resolveModules env2 cs0 libsC2 [⟨"a", some "1.0.0"⟩] []).written = true :=
  ⟨rfl, rfl, rfl⟩

/-- Claim C3: evaluation at the failing input.  On a first call whose
version resolution fails, `getModule` records the version error under
the query string but then proceeds to fetch the file tree at the
unresolved query; the fetch failure replaces the entry, and the call
fails with the fetch message, not with the message naming the query
and the package. -/
theorem claim3_version_error_clobbered :
    (getModule env3 cs0 "left-pad" "9.9.9" none false).1 =
        Except.error "Failed to load FLAT" ∧
      lookupEntry (getModule env3 cs0 "left-pad" "9.9.9" none false).2.1 "left-pad" "9.9.9" =
        some (ModuleCacheItem.error "Failed to load FLAT") ∧
      "Failed to load FLAT" ≠ versionErrMsg "left-pad" "9.9.9" :=
  ⟨rfl, rfl, by decide⟩

/-- Claim C7: evaluation at the failing input.  `a@1` is not
self-describing and declares `x@1`; the fallback `@types/a@1` declares
`y@2`.  After `resolveDep`, the cache entry of `a@1.0.0` holds a
manifest whose dependency map has been mutated to also contain `y@2`:
`Object.assign(meta.dependencies ?? {}, ...)` of line 152 writes into
the cached manifest's own dependency object. -/
theorem claim7_cached_manifest_mutated :
    env7.parseManifest "PA7" = Except.ok metaA7 ∧
      lookupEntry (resolveDep env7 cs0 "a" "1" 0).2.1 "a" "1.0.0" =
        some (ModuleCacheItem.loaded metaA7Mut [("/package.json", "PA7")]) ∧
      metaA7Mut.dependencies ≠ metaA7.dependencies :=
  ⟨rfl, rfl, by decide⟩

/-- Counterexample for claim C4 as stated: (i) two successive calls
without `forceReload` whose extension filters are equal as sets but
differently ordered perform two full fetch sequences, because the memo
key joins the filter unsorted; (ii) when version resolution fails, the
second call does not return the first call's result: the first fails
with the fetch error of the attempt at the unresolved query, the
second (memoized) fails with the version message. -/
theorem claim4_counterexample :
    (([".x", ".y"].all fun s => [".y", ".x"].contains s) = true ∧
        ([".y", ".x"].all fun s => [".x", ".y"].contains s) = true) ∧
      countFileTree
          ((getModule env4 cs0 "m" "1" (some [".x", ".y"]) false).2.2 ++
            (getModule env4 (getModule env4 cs0 "m" "1" (some [".x", ".y"]) false).2.1
                "m" "1" (some [".y", ".x"]) false).2.2) = 2 ∧
      (getModule env4b cs0 "m" "q" none false).1 = Except.error "FT" ∧
      (getModule env4b (getModule env4b cs0 "m" "q" none false).2.1 "m" "q" none false).1 =
        Except.error (versionErrMsg "m" "q") ∧
      "FT" ≠ versionErrMsg "m" "q" :=
  ⟨⟨rfl, rfl⟩, rfl, rfl, rfl, by decide⟩

/-- Counterexample for claim C5 as stated: over the three references
`a@1, a@1, b@2` (N = 3) of which exactly one fails to resolve, the
output mapping has only two entries, because duplicate
"package@versionQuery" keys collapse into one slot. -/
theorem claim5_counterexample :
    [("a", "1"), ("a", "1"), ("b", "2")].length = 3 ∧
      (runAll env5 cs0 [("a", "1"), ("a", "1"), ("b", "2")]).1.countP exceptErrB = 1 ∧
      (resolveDeps env5 cs0 [("a", "1"), ("a", "1"), ("b", "2")]).1.length = 2 :=
  ⟨rfl, rfl, rfl⟩

/-- Claim C4 as amended: two successive `getModule` calls without
`forceReload` whose extension filters are equal as lists (the memo key
joins the filter in the given order, unsorted) and whose version query
resolves successfully perform at most one underlying fetch sequence —
the second call lists no file tree and fetches no file content — and
the second call returns the first call's result. -/
theorem claim4_memoized_second_call (env : NPMEnv) (st : CacheState) (module version v : String)
    (ext : Option (List String))
    (r1 r2 : Except String (String × ModuleMeta × List (String × String)))
    (st1 st2 : CacheState) (t1 t2 : List NetCall)
    (hcv : env.calcVersion module version = Except.ok v)
    (h1 : getModule env st module version ext false = (r1, st1, t1))
    (h2 : getModule env st1 module version ext false = (r2, st2, t2)) :
    r2 = r1 ∧ countFileTree t2 = 0 ∧ countContent t2 = 0 ∧
      countFileTree (t1 ++ t2) ≤ 1 := by
  have hg1 : getModule env st module version ext false =
      getModuleCore env (ensureModule st module) module version v ext false := by
    unfold getModule
    rw [hcv]
  rw [hg1] at h1
  have hr1 : (getModuleCore env (ensureModule st module) module version v ext false).1 = r1 := by
    rw [h1]
  have hst1 : (getModuleCore env (ensureModule st module) module version v ext false).2.1 = st1 := by
    rw [h1]
  have ht1 : (getModuleCore env (ensureModule st module) module version v ext false).2.2 = t1 := by
    rw [h1]
  have hmSome : (lookupA st1.moduleCache module).isSome := by
    rw [← hst1]
    exact getModuleCore_keeps_module env _ module version v ext (ensureModule_isSome st module)
  have hmemo : lookupA st1.cachedMap (uniqKey module v ext) = some true := by
    rw [← hst1]
    exact getModuleCore_memo_after env _ module version v ext
  have hg2 : getModule env st1 module version ext false =
      getModuleCore env (ensureModule st1 module) module version v ext false := by
    unfold getModule
    rw [hcv]
  rw [ensureModule_eq_self st1 module hmSome] at hg2
  rw [getModuleCore_hit env st1 module version v ext hmemo] at hg2
  rw [hg2] at h2
  have hr2 : r2 = readEntry st1 module v := by
    have := congrArg (fun p => p.1) h2
    simpa using this.symm
  have ht2 : t2 = [NetCall.calcVersion module version] := by
    have := congrArg (fun p => p.2.2) h2
    simpa using this.symm
  have hr1read : r1 = readEntry st1 module v := by
    rw [← hr1, ← hst1]
    exact getModuleCore_result env _ module version v ext false
  constructor
  · rw [hr2, hr1read]
  constructor
  · simp [ht2, countFileTree, isFileTreeCall]
  constructor
  · simp [ht2, countContent, isContentCall]
  · have hcount1 : countFileTree t1 ≤ 1 := by
      rw [← ht1]
      exact getModuleCore_fetch_count env _ module version v ext
    have hcount2 : countFileTree t2 = 0 := by
      simp [ht2, countFileTree, isFileTreeCall]
    simp only [countFileTree, List.countP_append] at hcount1 hcount2 ⊢
    omega

/-- Witness for the amended claim C4: the memoization theorem applied
to the oracle `env4` at filter `[".x"]`, both hypotheses discharged at
the concrete input. -/
theorem claim4_witness :
    env4.calcVersion "m" "1" = Except.ok "1.0.0" ∧
      ((getModule env4 (getModule env4 cs0 "m" "1" (some [".x"]) false).2.1
            "m" "1" (some [".x"]) false).1 =
          (getModule env4 cs0 "m" "1" (some [".x"]) false).1 ∧
        countFileTree (getModule env4 (getModule env4 cs0 "m" "1" (some [".x"]) false).2.1
            "m" "1" (some [".x"]) false).2.2 = 0 ∧
        countContent (getModule env4 (getModule env4 cs0 "m" "1" (some [".x"]) false).2.1
            "m" "1" (some [".x"]) false).2.2 = 0 ∧
        countFileTree ((getModule env4 cs0 "m" "1" (some [".x"]) false).2.2 ++
            (getModule env4 (getModule env4 cs0 "m" "1" (some [".x"]) false).2.1
                "m" "1" (some [".x"]) false).2.2) ≤ 1) :=
  ⟨rfl,
    claim4_memoized_second_call env4 cs0 "m" "1" "1.0.0" (some [".x"])
      (getModule env4 cs0 "m" "1" (some [".x"]) false).1
      (getModule env4 (getModule env4 cs0 "m" "1" (some [".x"]) false).2.1
          "m" "1" (some [".x"]) false).1
      (getModule env4 cs0 "m" "1" (some [".x"]) false).2.1
      (getModule env4 (getModule env4 cs0 "m" "1" (some [".x"]) false).2.1
          "m" "1" (some [".x"]) false).2.1
      (getModule env4 cs0 "m" "1" (some [".x"]) false).2.2
      (getModule env4 (getModule env4 cs0 "m" "1" (some [".x"]) false).2.1
          "m" "1" (some [".x"]) false).2.2
      rfl rfl rfl⟩

theorem runAll_length (env : NPMEnv) (st : CacheState) (deps : List (String × String)) :
    (runAll env st deps).1.length = deps.length := by
  induction deps generalizing st with
  | nil => rfl
  | cons d rest ih =>
    cases d with
    | mk m v => simp [runAll, ih]

theorem isErrB_toDepResult (r : Except String ResolvedTree) :
    DepResult.isErrB (toDepResult r) = exceptErrB r := by
  cases r <;> rfl

theorem countP_snd_zip {α β : Type} (p : β → Bool) (l1 : List α) (l2 : List β)
    (h : l1.length = l2.length) :
    (l1.zip l2).countP (fun q => p q.2) = l2.countP p := by
  induction l1 generalizing l2 with
  | nil =>
    cases l2 with
    | nil => rfl
    | cons b r2 => simp at h
  | cons a r1 ih =>
    cases l2 with
    | nil => simp at h
    | cons b r2 =>
      simp only [List.zip_cons_cons, List.countP_cons]
      rw [ih r2 (by simpa using h)]

theorem foldl_insert_nodup (ps : List ((String × String) × Except String ResolvedTree))
    (acc : List (String × DepResult))
    (hnd : (ps.map fun p => depKey p.1.1 p.1.2).Nodup)
    (hfresh : ∀ q ∈ acc, ∀ p ∈ ps, (q.1 == depKey p.1.1 p.1.2) = false) :
    ps.foldl (fun acc2 p => insertA acc2 (depKey p.1.1 p.1.2) (toDepResult p.2)) acc =
      acc ++ ps.map fun p => (depKey p.1.1 p.1.2, toDepResult p.2) := by
  induction ps generalizing acc with
  | nil => simp
  | cons p rest ih =>
    simp only [List.foldl_cons, List.map_cons]
    rw [insertA_fresh acc (depKey p.1.1 p.1.2) (toDepResult p.2)
      (fun q hq => hfresh q hq p (List.mem_cons_self p rest))]
    have hnd2 : (rest.map fun p2 => depKey p2.1.1 p2.1.2).Nodup := by
      simp only [List.map_cons, List.nodup_cons] at hnd
      exact hnd.2
    have hnotin : depKey p.1.1 p.1.2 ∉ rest.map fun p2 => depKey p2.1.1 p2.1.2 := by
      simp only [List.map_cons, List.nodup_cons] at hnd
      exact hnd.1
    have hfresh2 : ∀ q ∈ acc ++ [(depKey p.1.1 p.1.2, toDepResult p.2)], ∀ p2 ∈ rest,
        (q.1 == depKey p2.1.1 p2.1.2) = false := by
      intro q hq p2 hp2
      rcases List.mem_append.mp hq with hq1 | hq2
      · exact hfresh q hq1 p2 (List.mem_cons_of_mem _ hp2)
      · have hq3 : q = (depKey p.1.1 p.1.2, toDepResult p.2) := by simpa using hq2
        subst hq3
        simp only [beq_eq_false_iff_ne, ne_eq]
        intro hcontra
        exact hnotin (hcontra ▸ List.mem_map_of_mem (fun p2 => depKey p2.1.1 p2.1.2) hp2)
    rw [ih (acc ++ [(depKey p.1.1 p.1.2, toDepResult p.2)]) hnd2 hfresh2]
    simp

/-- Claim C5 as amended: over references whose "package@versionQuery"
keys are pairwise distinct and of which exactly one fails to resolve,
`resolveDeps` returns the mapping that pairs each reference's key with
its own `resolveDep` outcome; it has as many entries as references,
exactly one of which holds only an error message, and each of the
others holds the full tree of its own reference. -/
theorem claim5_one_failure_isolated (env : NPMEnv) (st : CacheState)
    (deps : List (String × String))
    (hnd : (deps.map fun d => depKey d.1 d.2).Nodup)
    (hone : (runAll env st deps).1.countP exceptErrB = 1) :
    (resolveDeps env st deps).1 =
        ((deps.zip (runAll env st deps).1).map fun p =>
          (depKey p.1.1 p.1.2, toDepResult p.2)) ∧
      (resolveDeps env st deps).1.length = deps.length ∧
      (resolveDeps env st deps).1.countP (fun p => DepResult.isErrB p.2) = 1 := by
  have hlen : (runAll env st deps).1.length = deps.length := runAll_length env st deps
  have hkeys : ((deps.zip (runAll env st deps).1).map fun p => depKey p.1.1 p.1.2) =
      deps.map fun d => depKey d.1 d.2 := by
    have hfst : (deps.zip (runAll env st deps).1).map Prod.fst = deps :=
      List.map_fst_zip deps (runAll env st deps).1 (le_of_eq hlen.symm)
    calc ((deps.zip (runAll env st deps).1).map fun p => depKey p.1.1 p.1.2)
        = ((deps.zip (runAll env st deps).1).map Prod.fst).map fun d => depKey d.1 d.2 := by
          rw [List.map_map]
          rfl
      _ = deps.map fun d => depKey d.1 d.2 := by rw [hfst]
  have hmain : (resolveDeps env st deps).1 =
      ((deps.zip (runAll env st deps).1).map fun p =>
        (depKey p.1.1 p.1.2, toDepResult p.2)) := by
    show buildAcc deps (runAll env st deps).1 = _
    unfold buildAcc
    rw [foldl_insert_nodup (deps.zip (runAll env st deps).1) []
      (by rw [hkeys]; exact hnd) (by intro q hq; simp at hq)]
    simp
  refine ⟨hmain, ?_, ?_⟩
  · rw [hmain]
    simp [List.length_zip, hlen]
  · rw [hmain]
    rw [List.countP_map]
    have heq : ((fun p => DepResult.isErrB p.2) ∘
        fun p : (String × String) × Except String ResolvedTree =>
          (depKey p.1.1 p.1.2, toDepResult p.2)) =
        fun p : (String × String) × Except String ResolvedTree => exceptErrB p.2 := by
      funext p
      simp [Function.comp, isErrB_toDepResult]
    rw [heq]
    rw [countP_snd_zip exceptErrB deps (runAll env st deps).1 hlen.symm]
    exact hone

/-- Witness for the amended claim C5: two references with distinct
keys, of which exactly `b@2` fails; the isolation theorem applied at
this concrete input. -/
theorem claim5_witness :
    ([("a", "1"), ("b", "2")].map fun d => depKey d.1 d.2).Nodup ∧
      (runAll env5 cs0 [("a", "1"), ("b", "2")]).1.countP exceptErrB = 1 ∧
      ((resolveDeps env5 cs0 [("a", "1"), ("b", "2")]).1 =
          (([("a", "1"), ("b", "2")].zip (runAll env5 cs0 [("a", "1"), ("b", "2")]).1).map fun p =>
            (depKey p.1.1 p.1.2, toDepResult p.2)) ∧
        (resolveDeps env5 cs0 [("a", "1"), ("b", "2")]).1.length =
          [("a", "1"), ("b", "2")].length ∧
        (resolveDeps env5 cs0 [("a", "1"), ("b", "2")]).1.countP
          (fun p => DepResult.isErrB p.2) = 1) :=
  ⟨by decide, rfl,
    claim5_one_failure_isolated env5 cs0 [("a", "1"), ("b", "2")] (by decide) rfl⟩

/-- Claim C9: when every package name of `newRefs` already occurs in
`oldRefs` and vice versa (versions may differ), `resolveModules`
performs no network call at all, does not write the Type Host back,
leaves its virtual-file list unchanged, leaves the cache unchanged and
reports no failure. -/
theorem claim9_same_names_noop (env : NPMEnv) (st : CacheState)
    (libs : List (String × String)) (oldRefs newRefs : List Ref)
    (hAdd : ∀ r ∈ newRefs, (oldRefs.any fun o => o.module == r.module) = true)
    (hDel : ∀ r ∈ oldRefs, (newRefs.any fun n => n.module == r.module) = true) :
    resolveModules env st libs oldRefs newRefs = ⟨libs, false, st, [], []⟩ := by
  have h1 : (newRefs.filter fun r => !(oldRefs.any fun o => o.module == r.module)) = [] := by
    rw [List.filter_eq_nil_iff]
    intro a ha
    simp [hAdd a ha]
  have h2 : (oldRefs.filter fun r => !(newRefs.any fun n => n.module == r.module)) = [] := by
    rw [List.filter_eq_nil_iff]
    intro a ha
    simp [hDel a ha]
  unfold resolveModules
  rw [h1, h2]
  simp [resolveDeps, runAll, buildAcc, depTriples, depFailures]

/-- Witness for claim C9: old and new reference lists naming the same
two packages in different order and with different versions, on a
fully failing oracle. -/
theorem claim9_witness :
    (∀ r ∈ [Ref.mk "b" (some "9"), Ref.mk "a" none],
        (([Ref.mk "a" (some "1"), Ref.mk "b" none].any fun o => o.module == r.module) = true)) ∧
      (∀ r ∈ [Ref.mk "a" (some "1"), Ref.mk "b" none],
        (([Ref.mk "b" (some "9"), Ref.mk "a" none].any fun n => n.module == r.module) = true)) ∧
      resolveModules envDead cs0 [("p", "c")] [Ref.mk "a" (some "1"), Ref.mk "b" none]
          [Ref.mk "b" (some "9"), Ref.mk "a" none] =
        ⟨[("p", "c")], false, cs0, [], []⟩ :=
  ⟨by decide, by decide,
    claim9_same_names_noop envDead cs0 [("p", "c")]
      [Ref.mk "a" (some "1"), Ref.mk "b" none] [Ref.mk "b" (some "9"), Ref.mk "a" none]
      (by decide) (by decide)⟩

/-- The spec-side reading of "self-describing": one of the `typings`
field, the `types` field, a string export-condition value, or an
export-condition object's `types`/`typings` sub-field names a `.d.ts`
file. -/
def SelfDescribing (meta : ModuleMeta) : Prop :=
  (∃ s, meta.typings = some s ∧ strEndsWith s ".d.ts" = true) ∨
  (∃ s, meta.types = some s ∧ strEndsWith s ".d.ts" = true) ∨
  (∃ k v, (k, ExportValue.str v) ∈ meta.exports.getD [] ∧ strEndsWith v ".d.ts" = true) ∨
  (∃ k o, (k, ExportValue.obj o) ∈ meta.exports.getD [] ∧
    ((∃ s, o.types = some s ∧ strEndsWith s ".d.ts" = true) ∨
     (∃ s, o.typings = some s ∧ strEndsWith s ".d.ts" = true)))

theorem optEndsDts_iff (o : Option String) :
    optEndsDts o = true ↔ ∃ s, o = some s ∧ strEndsWith s ".d.ts" = true := by
  cases o <;> simp [optEndsDts]

/-- Manifest whose only `.d.ts` path is the `types` condition of an
export-map entry whose default condition is a `.js` file. -/
def metaExportsOnly : ModuleMeta :=
  ⟨none, none, none, none, none,
    some [(".", ExportValue.obj ⟨none, none, none, none, some "./index.js",
      some "./index.d.ts", none⟩)],
    none⟩

/-- Claim C8: `isDTSModule` classifies a manifest as self-describing
exactly when the `typings` field, the `types` field, a string
export-condition value, or an export-condition object's
`types`/`typings` sub-field names a `.d.ts` file; in particular a
manifest with `types: "index.d.ts"` classifies as self-describing, a
manifest whose only `.d.ts` path is the `types` condition of an export
entry classifies as self-describing, and the empty manifest does
not. -/
theorem claim8_classification :
    (∀ meta : ModuleMeta, isDTSModule meta = true ↔ SelfDescribing meta) ∧
      isDTSModule metaSelfNoDeps = true ∧
      isDTSModule metaExportsOnly = true ∧
      isDTSModule ModuleMeta.empty = false := by
  refine ⟨?_, rfl, rfl, rfl⟩
  intro meta
  unfold isDTSModule SelfDescribing
  simp only [Bool.or_eq_true, List.any_eq_true, optEndsDts_iff]
  constructor
  · rintro ((h | h) | ⟨⟨k, val⟩, hmem, hval⟩)
    · exact Or.inl h
    · exact Or.inr (Or.inl h)
    · cases val with
      | str s =>
        refine Or.inr (Or.inr (Or.inl ⟨k, s, hmem, ?_⟩))
        simpa using hval
      | obj o =>
        refine Or.inr (Or.inr (Or.inr ⟨k, o, hmem, ?_⟩))
        simpa [optEndsDts_iff] using hval
  · rintro (h | h | ⟨k, v, hmem, hv⟩ | ⟨k, o, hmem, ho⟩)
    · exact Or.inl (Or.inl h)
    · exact Or.inl (Or.inr h)
    · refine Or.inr ⟨(k, ExportValue.str v), hmem, ?_⟩
      simpa using hv
    · refine Or.inr ⟨(k, ExportValue.obj o), hmem, ?_⟩
      simpa [optEndsDts_iff] using ho

/-- Claim C10: when the primary manifest is not self-describing,
`resolveDep` requests the synthesized fallback package
`@types/<flattened name>` at the very version string that was passed
for the primary package (visible as the version-resolution call in the
trace), and when that fallback load fails the walk continues without
it: the result, if it is a tree at all, holds no cache entry under the
fallback name. -/
theorem claim10_fallback_same_version (env : NPMEnv) (st st1 st2 : CacheState)
    (module version : String) (depth : Nat) (v : String) (meta : ModuleMeta)
    (files : List (String × String)) (t1 t2 : List NetCall) (e : String)
    (hd : depth ≤ 2)
    (h1 : getModule env st module version (some [".d.ts"]) false =
      (Except.ok (v, meta, files), st1, t1))
    (hnd : isDTSModule meta = false)
    (hne : "@types/" ++ getDTName module ≠ module)
    (h2 : getModule env st1 ("@types/" ++ getDTName module) version (some [".d.ts"]) false =
      (Except.error e, st2, t2)) :
    NetCall.calcVersion ("@types/" ++ getDTName module) version ∈
        (resolveDep env st module version depth).2.2 ∧
      ∀ t, (resolveDep env st module version depth).1 = Except.ok t →
        ∀ it : ModuleCacheItem, ("@types/" ++ getDTName module, TreeVal.item it) ∉ t := by
  obtain ⟨g, hg⟩ : ∃ g, 3 - depth = g + 1 := ⟨2 - depth, by omega⟩
  have hd2 : ¬ depth > 2 := by omega
  have hstep : resolveDep env st module version depth =
      resolveDepStep (fun st3 m v2 => resolveDepGas g env st3 m v2 (depth + 1))
        env st module version := by
    unfold resolveDep
    rw [hg, resolveDepGas.eq_def, if_neg hd2]
  rw [hstep]
  simp only [resolveDepStep, h1, hnd, Bool.false_eq_true, if_false, h2]
  obtain ⟨trest, htrest⟩ :=
    getModule_trace_head env st1 ("@types/" ++ getDTName module) version (some [".d.ts"]) false
  rw [h2] at htrest
  simp only at htrest
  generalize runChildren _ _ _ = rc
  obtain ⟨cr, st4, t3⟩ := rc
  cases cr with
  | error msg =>
    constructor
    · simp [htrest]
    · intro t ht
      exact absurd ht (by simp)
  | ok children =>
    constructor
    · simp [htrest]
    · intro t ht it hmem
      simp only [Except.ok.injEq] at ht
      rw [← ht] at hmem
      rcases mem_assignA _ _ _ hmem with hm | hm
      · have hfst : "@types/" ++ getDTName module = module := by
          have hsg := List.mem_singleton.mp hm
          exact congrArg Prod.fst hsg
        exact hne hfst
      · rcases List.mem_map.mp hm with ⟨q, _, hq⟩
        have hsnd : TreeVal.tree q.2 = TreeVal.item it := congrArg Prod.snd hq
        exact TreeVal.noConfusion hsnd

/-- Witness for claim C10: `lodash@4.0.0` loads a manifest that is not
self-describing, the fallback `@types/lodash` is requested at version
"4.0.0" (not "latest") and fails, and the walk still returns a tree
without a fallback entry. -/
theorem claim10_witness :
    (0 ≤ 2 ∧ isDTSModule metaL = false ∧ "@types/" ++ getDTName "lodash" ≠ "lodash") ∧
      (NetCall.calcVersion ("@types/" ++ getDTName "lodash") "4.0.0" ∈
          (resolveDep env10 cs0 "lodash" "4.0.0" 0).2.2 ∧
        ∀ t, (resolveDep env10 cs0 "lodash" "4.0.0" 0).1 = Except.ok t →
          ∀ it : ModuleCacheItem,
            ("@types/" ++ getDTName "lodash", TreeVal.item it) ∉ t) :=
  ⟨⟨by decide, rfl, by decide⟩,
    claim10_fallback_same_version env10 cs0
      (getModule env10 cs0 "lodash" "4.0.0" (some [".d.ts"]) false).2.1
      (getModule env10 (getModule env10 cs0 "lodash" "4.0.0" (some [".d.ts"]) false).2.1
          ("@types/" ++ getDTName "lodash") "4.0.0" (some [".d.ts"]) false).2.1
      "lodash" "4.0.0" 0 "4.0.0" metaL [("/package.json", "PL")]
      (getModule env10 cs0 "lodash" "4.0.0" (some [".d.ts"]) false).2.2
      (getModule env10 (getModule env10 cs0 "lodash" "4.0.0" (some [".d.ts"]) false).2.1
          ("@types/" ++ getDTName "lodash") "4.0.0" (some [".d.ts"]) false).2.2
      "Failed FT"
      (by decide) rfl rfl (by decide) rfl⟩

end Modules
